import Mathlib

/-!
Verification of the claude_export_converter utility (src/claude_export_converter.py).

The program is shallowly embedded: parsed JSON values become the inductive type
`Json`; the Python functions `sanitize_filename`, `extract_conversation_title`,
`extract_messages`, `format_message` and the conversion driver
`convert_conversations_to_md` become Lean functions over `Json`.  Python
operations that can raise (`x in c` on a non-iterable, subscripting a list or a
string with a string key, `.get` on a non-dict, slicing a non-sliceable value,
`str.join` over non-string items, `re.sub` applied to a non-string) are modelled
with `Except String`, the error string standing for the exception.  JSON numbers
are modelled as integers (no claim involves fractional values).  File-system
state is modelled as the list of paths existing inside the output directory, and
paths are taken relative to the output directory (the directory prefix that
`os.path.join` adds is the same constant on every candidate name, so it affects
neither collisions nor distinctness).  Console output becomes a list of log
lines, and an uncaught Python exception becomes an `aborted` field.
-/

/-- A parsed JSON value, as produced by `json.load`: primitives, ordered
sequences, and ordered string-keyed mappings.  `json.load` yields mappings with
pairwise-distinct keys (duplicates collapse); lookups below take the first
matching key, which coincides with Python dict lookup on such mappings. -/
inductive Json where
  | null : Json
  | bool (b : Bool) : Json
  | num (n : Int) : Json
  | str (s : String) : Json
  | arr (elems : List Json) : Json
  | obj (fields : List (String × Json)) : Json

/-- Python truthiness of a parsed JSON value (`if x:`). -/
def truthy : Json → Bool
  | Json.null => false
  | Json.bool b => b
  | Json.num n => n != 0
  | Json.str s => s != ""
  | Json.arr xs => !xs.isEmpty
  | Json.obj fs => !fs.isEmpty

/-- Does the character list (second argument) start with the first argument? -/
def listStartsWith : List Char → List Char → Bool
  | [], _ => true
  | _ :: _, [] => false
  | a :: as, b :: bs => a == b && listStartsWith as bs

/-- Is `needle` a contiguous sublist of the second argument? -/
def listHasSub (needle : List Char) : List Char → Bool
  | [] => listStartsWith needle []
  | c :: t => listStartsWith needle (c :: t) || listHasSub needle t

/-- Python substring containment: `needle in hay` for strings. -/
def strHasSub (hay needle : String) : Bool :=
  listHasSub needle.data hay.data

/-- Error text standing for the TypeError raised by `field in c` when `c` is
not iterable (a number, boolean or null). -/
def errNotIterable : String := "TypeError: argument is not iterable"

/-- Error text standing for the TypeError raised by subscripting a list or a
string with a string key. -/
def errStrIndex : String := "TypeError: indices must be integers or slices, not str"

/-- Error text standing for the AttributeError raised by calling `.get` on a
value that is not a dict. -/
def errNoGet : String := "AttributeError: object has no attribute get"

/-- Error text standing for the TypeError raised by slicing a value that is
neither a string nor a list. -/
def errNotSliceable : String := "TypeError: value is not subscriptable"

/-- Error text standing for the TypeError raised by `str.join` when some
sequence item is not a string. -/
def errJoinNonStr : String := "TypeError: sequence item: expected str instance"

/-- Error text standing for the TypeError raised by `re.sub` when the subject
is not a string. -/
def errReSubNonStr : String := "TypeError: expected string or bytes-like object"

/-- Python membership test `field in container` on a parsed JSON value:
key membership for a dict, element membership for a list (only string elements
can equal a string), substring containment for a string, and a TypeError for
any other (non-iterable) value. -/
def pyContains (container : Json) (field : String) : Except String Bool :=
  match container with
  | Json.obj fs => Except.ok (fs.any (fun kv => kv.1 == field))
  | Json.arr xs =>
      Except.ok (xs.any (fun j => match j with
        | Json.str s => s == field
        | _ => false))
  | Json.str s => Except.ok (strHasSub s field)
  | _ => Except.error errNotIterable

/-- Python subscript `container[field]` with a string key: dict lookup (the
caller has already established membership; a missing key would be a KeyError),
and a TypeError for any non-dict value. -/
def pyGetItem (container : Json) (field : String) : Except String Json :=
  match container with
  | Json.obj fs =>
      match fs.find? (fun kv => kv.1 == field) with
      | some kv => Except.ok kv.2
      | none => Except.error "KeyError"
  | _ => Except.error errStrIndex

/-- Python `m.get(k, dflt)`: dict lookup with a default; an AttributeError for
any non-dict value. -/
def pyDictGet (m : Json) (k : String) (dflt : Json) : Except String Json :=
  match m with
  | Json.obj fs =>
      match fs.find? (fun kv => kv.1 == k) with
      | some kv => Except.ok kv.2
      | none => Except.ok dflt
  | _ => Except.error errNoGet

/-- Python slice `v[:50]` as used on a title candidate: strings and lists are
truncated to their first 50 items, anything else raises a TypeError. -/
def pySlice50 (v : Json) : Except String Json :=
  match v with
  | Json.str s => Except.ok (Json.str (String.mk (s.data.take 50)))
  | Json.arr xs => Except.ok (Json.arr (xs.take 50))
  | _ => Except.error errNotSliceable

/-- The decimal digit characters, used to render numbers exactly as Python's
decimal formatting does. -/
def digitChar (n : Nat) : Char :=
  match n with
  | 0 => '0' | 1 => '1' | 2 => '2' | 3 => '3' | 4 => '4'
  | 5 => '5' | 6 => '6' | 7 => '7' | 8 => '8' | _ => '9'

/-- Big-endian decimal digits of a natural number, with structural fuel (any
fuel above the number itself yields the digits; the fuel keeps the definition
reducible by the kernel). -/
def decDigitsGo (fuel : Nat) (n : Nat) : List Char :=
  match fuel with
  | 0 => []
  | fuel + 1 =>
    if n < 10 then [digitChar n]
    else decDigitsGo fuel (n / 10) ++ [digitChar (n % 10)]

/-- Big-endian decimal digits of a natural number. -/
def decDigits (n : Nat) : List Char := decDigitsGo (n + 1) n

/-- Decimal rendering of a natural number (Python `str(n)` for `n ≥ 0`). -/
def decRepr (n : Nat) : String := String.mk (decDigits n)

/-- Python `str(n)` for an integer. -/
def intRepr (n : Int) : String :=
  if n < 0 then "-" ++ decRepr (-n).toNat else decRepr n.toNat

/-- One character of a Python string repr, escaped for quote character `q`.
The common escapes are modelled (backslash, the quote character, newline,
carriage return, tab); rarer non-printable escapes are left verbatim. -/
def escapeChar (q : Char) (c : Char) : String :=
  if c == '\\' then "\\\\"
  else if c == q then String.mk ['\\', q]
  else if c == '\n' then "\\n"
  else if c == '\r' then "\\r"
  else if c == '\t' then "\\t"
  else String.mk [c]

/-- Python `repr` of a string: single-quoted, unless the string contains a
single quote and no double quote. -/
def pyReprStr (s : String) : String :=
  let q := if s.data.contains '\'' && !(s.data.contains '"') then '"' else '\''
  String.mk [q] ++ String.join (s.data.map (escapeChar q)) ++ String.mk [q]

mutual

/-- Python `repr` of a parsed JSON value. -/
def pyRepr : Json → String
  | Json.null => "None"
  | Json.bool b => if b then "True" else "False"
  | Json.num n => intRepr n
  | Json.str s => pyReprStr s
  | Json.arr xs => "[" ++ pyReprList xs ++ "]"
  | Json.obj fs => "\x7b" ++ pyReprFields fs ++ "\x7d"

/-- Comma-separated reprs of list elements. -/
def pyReprList : List Json → String
  | [] => ""
  | x :: rest =>
    match rest with
    | [] => pyRepr x
    | _ :: _ => pyRepr x ++ ", " ++ pyReprList rest

/-- Comma-separated reprs of dict entries. -/
def pyReprFields : List (String × Json) → String
  | [] => ""
  | kv :: rest =>
    match rest with
    | [] => pyReprStr kv.1 ++ ": " ++ pyRepr kv.2
    | _ :: _ => pyReprStr kv.1 ++ ": " ++ pyRepr kv.2 ++ ", " ++ pyReprFields rest

end

/-- Python `str` of a parsed JSON value (a string is taken verbatim, anything
else falls back to its repr, as in f-string interpolation). -/
def pyStr : Json → String
  | Json.str s => s
  | j => pyRepr j

/-- Python `str.capitalize` (ASCII model): first character upper-cased, the
rest lower-cased. -/
def pyCapitalize (s : String) : String :=
  match s.data with
  | [] => ""
  | c :: rest => String.mk (c.toUpper :: rest.map Char.toLower)


/-- The characters removed by `sanitize_filename`'s regular expression
`[\\/*?:"<>|]`. -/
def invalidFileChars : List Char := ['\\', '/', '*', '?', ':', '"', '<', '>', '|']

/-- The characters stripped from both ends by `sanitized.strip('. ')`. -/
def stripSet : List Char := ['.', ' ']

/-- The cleaning pipeline of `sanitize_filename` before the final
truncate-or-fallback: remove the invalid characters, replace spaces with
underscores, strip leading and trailing dots and spaces. -/
def sanitizeCore (filename : String) : List Char :=
  let s1 := filename.data.filter (fun c => !invalidFileChars.contains c)
  let s2 := s1.map (fun c => if c == ' ' then '_' else c)
  ((s2.dropWhile (fun c => stripSet.contains c)).reverse.dropWhile
    (fun c => stripSet.contains c)).reverse

/-- `sanitize_filename` (src lines 6-17): clean the string, then return the
first 100 characters, or the literal fallback "Untitled" if the cleaned string
is empty. -/
def sanitize_filename (filename : String) : String :=
  let s := sanitizeCore filename
  if s.isEmpty then "Untitled" else String.mk (s.take 100)

/-- The message-list field aliases of `extract_messages` (src line 42), in
priority order. -/
def message_fields : List String := ["chat_messages", "messages", "conversation", "history"]

/-- The title field aliases of `extract_conversation_title` (src line 24), in
priority order. -/
def title_fields : List String := ["name", "title", "conversation_title", "subject"]

/-- The sender field aliases of `format_message` (src line 58). -/
def sender_fields : List String := ["sender", "role", "author", "from"]

/-- The text field aliases of `format_message` (src line 66). -/
def text_fields : List String := ["text", "content", "message", "body"]

/-- The timestamp field aliases of `format_message` (src line 86). -/
def timestamp_fields : List String := ["timestamp", "created_at", "time", "date"]

/-- The loop of `extract_messages` (src lines 43-45): the first alias that is
a member of the conversation and subscripts to a list wins; membership and
subscripting follow Python semantics and can raise. -/
def findListField (conversation : Json) : List String → Except String (Option (List Json))
  | [] => Except.ok none
  | f :: rest =>
    match pyContains conversation f with
    | Except.error e => Except.error e
    | Except.ok b =>
      if b then
        match pyGetItem conversation f with
        | Except.error e => Except.error e
        | Except.ok (Json.arr xs) => Except.ok (some xs)
        | Except.ok _ => findListField conversation rest
      else findListField conversation rest

/-- `extract_messages` (src lines 37-51). -/
def extract_messages (conversation : Json) : Except String (List Json) :=
  match findListField conversation message_fields with
  | Except.error e => Except.error e
  | Except.ok (some xs) => Except.ok xs
  | Except.ok none =>
    match conversation with
    | Json.arr xs => Except.ok xs
    | _ => Except.ok []

/-- The loop of `extract_conversation_title` (src lines 25-27): the first alias
that is a member of the conversation with a truthy value wins. -/
def findTruthyField (conversation : Json) : List String → Except String (Option Json)
  | [] => Except.ok none
  | f :: rest =>
    match pyContains conversation f with
    | Except.error e => Except.error e
    | Except.ok b =>
      if b then
        match pyGetItem conversation f with
        | Except.error e => Except.error e
        | Except.ok v => if truthy v then Except.ok (some v) else findTruthyField conversation rest
      else findTruthyField conversation rest

/-- `extract_conversation_title` (src lines 19-35).  The value returned on a
title-field hit is the raw field value (not necessarily a string); the
fallback derives a title from the first 50 characters of the first message's
text, or returns "Untitled_Conversation". -/
def extract_conversation_title (conversation : Json) : Except String Json :=
  match findTruthyField conversation title_fields with
  | Except.error e => Except.error e
  | Except.ok (some v) => Except.ok v
  | Except.ok none =>
    match extract_messages conversation with
    | Except.error e => Except.error e
    | Except.ok [] => Except.ok (Json.str "Untitled_Conversation")
    | Except.ok (m :: _) =>
      match pyDictGet m "content" (Json.str "") with
      | Except.error e => Except.error e
      | Except.ok inner =>
        match pyDictGet m "text" inner with
        | Except.error e => Except.error e
        | Except.ok tv =>
          match pySlice50 tv with
          | Except.error e => Except.error e
          | Except.ok fm =>
            if truthy fm then Except.ok (Json.str ("Conversation_" ++ pyStr fm))
            else Except.ok (Json.str "Untitled_Conversation")

/-- The loop of `format_message`'s sender and timestamp resolution (src lines
60-63 and 88-91): the first alias present in the message wins, regardless of
its value's truthiness. -/
def findPresentField (message : Json) : List String → Except String (Option Json)
  | [] => Except.ok none
  | f :: rest =>
    match pyContains message f with
    | Except.error e => Except.error e
    | Except.ok b =>
      if b then
        match pyGetItem message f with
        | Except.error e => Except.error e
        | Except.ok v => Except.ok (some v)
      else findPresentField message rest

/-- Sender resolution of `format_message` (src lines 57-63). -/
def resolve_sender (message : Json) : Except String String :=
  match findPresentField message sender_fields with
  | Except.error e => Except.error e
  | Except.ok (some v) => Except.ok (pyCapitalize (pyStr v))
  | Except.ok none => Except.ok "Unknown"

/-- The part-collection loop of `format_message` (src lines 76-81): a part that
is a dict containing "text" contributes that value, a string part contributes
itself, all other parts are skipped. -/
def collectParts : List Json → List Json
  | [] => []
  | p :: rest =>
    match p with
    | Json.obj fs =>
      match fs.find? (fun kv => kv.1 == "text") with
      | some kv => kv.2 :: collectParts rest
      | none => collectParts rest
    | Json.str s => Json.str s :: collectParts rest
    | _ => collectParts rest

/-- Checks that every collected part is a string, as `str.join` requires. -/
def allStrings : List Json → Option (List String)
  | [] => some []
  | Json.str s :: rest => (allStrings rest).map (fun ss => s :: ss)
  | _ => none

/-- `'\n'.join(ss)`. -/
def joinWithNewline : List String → String
  | [] => ""
  | s :: rest =>
    match rest with
    | [] => s
    | _ :: _ => s ++ "\n" ++ joinWithNewline rest

/-- Python `'\n'.join(parts)` over collected parts: a TypeError unless every
item is a string. -/
def pyJoinNewline (parts : List Json) : Except String String :=
  match allStrings parts with
  | some ss => Except.ok (joinWithNewline ss)
  | none => Except.error errJoinNonStr

/-- Text resolution of `format_message` (src lines 65-83): the first present
text alias wins; a dict value containing "text" is unwrapped one level; a list
value has its parts collected and joined with newlines; anything else is kept
as-is (an absent field leaves the empty string). -/
def resolve_text (message : Json) : Except String Json :=
  match findPresentField message text_fields with
  | Except.error e => Except.error e
  | Except.ok none => Except.ok (Json.str "")
  | Except.ok (some t) =>
    match t with
    | Json.obj fs =>
      match fs.find? (fun kv => kv.1 == "text") with
      | some kv => Except.ok kv.2
      | none => Except.ok (Json.obj fs)
    | Json.arr parts =>
      match pyJoinNewline (collectParts parts) with
      | Except.error e => Except.error e
      | Except.ok s => Except.ok (Json.str s)
    | _ => Except.ok t

/-- Timestamp resolution of `format_message` (src lines 86-91): the first
present timestamp alias wins. -/
def resolve_timestamp (message : Json) : Except String (Option Json) :=
  findPresentField message timestamp_fields

/-- The numeric value of a JSON value for `isinstance(x, (int, float))`:
booleans are ints in Python (True is 1). -/
def pyNumericValue : Json → Option Int
  | Json.num n => some n
  | Json.bool b => some (if b then 1 else 0)
  | _ => none

/-- Zero-padded two-digit decimal. -/
def pad2 (n : Nat) : String := if n < 10 then "0" ++ decRepr n else decRepr n

/-- Zero-padded four-digit decimal (strftime's %Y). -/
def pad4 (n : Nat) : String :=
  if n < 10 then "000" ++ decRepr n
  else if n < 100 then "00" ++ decRepr n
  else if n < 1000 then "0" ++ decRepr n
  else decRepr n

/-- Gregorian civil date from a count of days since 1970-01-01
(Howard Hinnant's algorithm): returns (year, month, day). -/
def civilFromDays (z : Int) : Int × Nat × Nat :=
  let zs := z + 719468
  let era : Int := zs.fdiv 146097
  let doe : Nat := (zs - era * 146097).toNat
  let yoe : Nat := (doe - doe / 1460 + doe / 36524 - doe / 146096) / 365
  let doy : Nat := doe - (365 * yoe + yoe / 4 - yoe / 100)
  let mp : Nat := (5 * doy + 2) / 153
  let d : Nat := doy - (153 * mp + 2) / 5 + 1
  let m : Nat := if mp < 10 then mp + 3 else mp - 9
  ((yoe : Int) + era * 400 + (if m ≤ 2 then 1 else 0), m, d)

/-- `datetime.fromtimestamp(ts).strftime('%Y-%m-%d %H:%M:%S')`, with the local
timezone taken to be UTC; `none` models the OverflowError/OSError raised for
timestamps whose year falls outside datetime's 1..9999 range (swallowed by the
bare `except` in the source). -/
def fromtimestamp (ts : Int) : Option String :=
  let days := ts.fdiv 86400
  let secs := (ts - days * 86400).toNat
  let c := civilFromDays days
  if c.1 < 1 || c.1 > 9999 then none
  else some (pad4 c.1.toNat ++ "-" ++ pad2 c.2.1 ++ "-" ++ pad2 c.2.2 ++ " " ++
    pad2 (secs / 3600) ++ ":" ++ pad2 (secs % 3600 / 60) ++ ":" ++ pad2 (secs % 60))

/-- The timestamp annotation of `format_message` (src lines 95-104), rendered
for an already-truthy timestamp value: numeric values (ints, and booleans,
which are ints in Python) go through `datetime.fromtimestamp`, any rendering
failure is swallowed and the annotation omitted; other values are rendered
verbatim. -/
def renderTimestampAnnot (v : Json) : String :=
  match pyNumericValue v with
  | some n =>
    match fromtimestamp n with
    | some s => " *(" ++ s ++ ")*"
    | none => ""
  | none => " *(" ++ pyStr v ++ ")*"

/-- `format_message` (src lines 53-107): resolve sender, text and timestamp in
that order, then render `**<Sender>:** *(<timestamp>)*\n<text>\n`, the
timestamp annotation appearing only for a truthy timestamp value. -/
def format_message (message : Json) : Except String String :=
  match resolve_sender message with
  | Except.error e => Except.error e
  | Except.ok sender =>
    match resolve_text message with
    | Except.error e => Except.error e
    | Except.ok text =>
      match resolve_timestamp message with
      | Except.error e => Except.error e
      | Except.ok ts =>
        let base := "**" ++ sender ++ ":**"
        let withTs :=
          match ts with
          | some v => if truthy v then base ++ renderTimestampAnnot v else base
          | none => base
        Except.ok (withTs ++ "\n" ++ pyStr text ++ "\n")

/-- Index of the last '.' in a character list, if any. -/
def lastDotPos : List Char → Option Nat
  | [] => none
  | c :: t =>
    match lastDotPos t with
    | some j => some (j + 1)
    | none => if c == '.' then some 0 else none

/-- `os.path.splitext` on a separator-free name: split at the last dot, except
that a name whose characters before the last dot are all dots (a leading-dot
name such as ".bashrc") has no extension. -/
def splitext (name : String) : String × String :=
  match lastDotPos name.data with
  | none => (name, "")
  | some i =>
    if (name.data.take i).all (fun c => c == '.') then (name, "")
    else (String.mk (name.data.take i), String.mk (name.data.drop i))

/-- The collision candidate `f"{base}_{counter}{ext}"` (src line 167). -/
def collisionName (base ext : String) (counter : Nat) : String :=
  base ++ "_" ++ decRepr counter ++ ext

/-- The `while os.path.exists(md_filename)` loop (src lines 163-168), with
explicit fuel; `fsE` is the list of paths existing in the output directory. -/
def collisionLoop (fsE : List String) (base ext : String) : Nat → Nat → String
  | counter, 0 => collisionName base ext counter
  | counter, fuel + 1 =>
    let cand := collisionName base ext counter
    if fsE.contains cand then collisionLoop fsE base ext (counter + 1) fuel else cand

/-- Filename collision resolution (src lines 162-168): keep the original name
if unused, otherwise append `_1`, `_2`, ... before the extension until an
unused name is found.  A fuel of `fsE.length + 1` always suffices, because the
candidates are pairwise distinct. -/
def resolveCollision (fsE : List String) (orig : String) : String :=
  if fsE.contains orig then
    let be := splitext orig
    collisionLoop fsE be.1 be.2 1 (fsE.length + 1)
  else orig

/-- The metadata section (src lines 176-182): written when the conversation
contains a `created_at` or `updated_at` member; the membership tests and
subscripts follow Python semantics, and a raised error carries the text
emitted so far (the file has already been opened and partially written). -/
def renderMetadata (c : Json) : String × Option String :=
  match pyContains c "created_at" with
  | Except.error e => ("", some e)
  | Except.ok b1 =>
    match (if b1 then Except.ok true else pyContains c "updated_at" : Except String Bool) with
    | Except.error e => ("", some e)
    | Except.ok bOr =>
      if !(b1 || bOr) then ("", none)
      else
        let h := "## Metadata\n"
        match (if b1 then
            (match pyGetItem c "created_at" with
             | Except.error e => Except.error e
             | Except.ok v => Except.ok ("- Created: " ++ pyStr v ++ "\n"))
          else Except.ok "" : Except String String) with
        | Except.error e => (h, some e)
        | Except.ok created =>
          match pyContains c "updated_at" with
          | Except.error e => (h ++ created, some e)
          | Except.ok b2 =>
            match (if b2 then
                (match pyGetItem c "updated_at" with
                 | Except.error e => Except.error e
                 | Except.ok v => Except.ok ("- Updated: " ++ pyStr v ++ "\n"))
              else Except.ok "" : Except String String) with
            | Except.error e => (h ++ created, some e)
            | Except.ok updated => (h ++ created ++ updated ++ "\n---\n\n", none)

/-- The message-writing loop (src lines 187-190): dict messages are formatted
and written followed by a blank line, non-dict messages are silently skipped;
a formatting error carries the text emitted so far. -/
def renderMessages : List Json → String × Option String
  | [] => ("", none)
  | m :: rest =>
    match m with
    | Json.obj fs =>
      (match format_message (Json.obj fs) with
       | Except.error e => ("", some e)
       | Except.ok s =>
         let r := renderMessages rest
         (s ++ "\n" ++ r.1, r.2))
    | _ => renderMessages rest

/-- The body written after the heading (src lines 176-192): metadata section,
then the formatted messages, or the no-messages placeholder for an empty
message list. -/
def renderBody (c : Json) : String × Option String :=
  match renderMetadata c with
  | (meta, some e) => (meta, some e)
  | (meta, none) =>
    match extract_messages c with
    | Except.error e => (meta, some e)
    | Except.ok msgs =>
      if msgs.isEmpty then (meta ++ "*No messages found in this conversation.*\n", none)
      else
        let r := renderMessages msgs
        (meta ++ r.1, r.2)

/-- The full file content (src lines 173-192): a level-1 heading with the
title in scope at write time, then the body. -/
def renderContent (titleStr : String) (c : Json) : String × Option String :=
  (("# " ++ titleStr ++ "\n\n") ++ (renderBody c).1, (renderBody c).2)

/-- The per-conversation steps outside the `try` (src lines 155-159): resolve
the title, apply the `Conversation_<i+1>` override when the title equals
"Untitled_Conversation" and the run has more than one conversation, then
sanitize.  `re.sub` raises when the (post-override) title is not a string.
Returns the title string and the sanitized stem; an error here is uncaught and
aborts the whole run. -/
def phaseA (nConvs i : Nat) (c : Json) : Except String (String × String) :=
  match extract_conversation_title c with
  | Except.error e => Except.error e
  | Except.ok t0 =>
    let t :=
      if (match t0 with
          | Json.str s => s == "Untitled_Conversation"
          | _ => false) && decide (1 < nConvs)
      then Json.str ("Conversation_" ++ decRepr (i + 1))
      else t0
    match t with
    | Json.str s => Except.ok (s, sanitize_filename s)
    | _ => Except.error errReSubNonStr

/-- One iteration of the conversion loop (src lines 153-198): phase A (title
and filename, uncaught errors abort), collision resolution, then the guarded
file write.  `fail` injects an I/O failure at `open` (no file is created).
Opening the file adds its path to the file system even if a later write step
fails, in which case the partial content stands; every failure inside the
`try` is caught and reported with the conversation's 1-based index.  Returns
the new file system, the created file (path and content), and the log lines. -/
def processConversation (nConvs i : Nat) (fail : Option String) (fsE : List String)
    (c : Json) : Except String (List String × Option (String × String) × List String) :=
  match phaseA nConvs i c with
  | Except.error e => Except.error e
  | Except.ok ts =>
    let md := resolveCollision fsE (ts.2 ++ ".md")
    match fail with
    | some msg =>
      Except.ok (fsE, none, ["Error processing conversation " ++ decRepr (i + 1) ++ ": " ++ msg])
    | none =>
      match (renderContent ts.1 c).2 with
      | some e =>
        Except.ok (md :: fsE, some (md, (renderContent ts.1 c).1),
          ["Error processing conversation " ++ decRepr (i + 1) ++ ": " ++ e])
      | none =>
        Except.ok (md :: fsE, some (md, (renderContent ts.1 c).1),
          ["Successfully created: " ++ md])

/-- Outcome of a run: the final file-system state, the transcript files
created (in order, with contents), the log lines, and the text of the uncaught
exception if the run aborted. -/
structure RunOut where
  finalFs : List String
  files : List (String × String)
  log : List String
  aborted : Option String

/-- The conversion loop over the conversation list (src lines 153-198),
starting at index `i` with file-system state `fsE`. -/
def driverLoop (fail : Nat → Option String) (nConvs : Nat) :
    List String → Nat → List Json → RunOut
  | fsE, _, [] => ⟨fsE, [], [], none⟩
  | fsE, i, c :: rest =>
    match processConversation nConvs i (fail i) fsE c with
    | Except.error e => ⟨fsE, [], [], some e⟩
    | Except.ok out =>
      let r := driverLoop fail nConvs out.1 (i + 1) rest
      ⟨r.finalFs, out.2.1.toList ++ r.files, out.2.2 ++ r.log, r.aborted⟩

/-- The wrapper keys checked for a conversation list (src line 138). -/
def wrapper_keys : List String := ["conversations", "chats", "data", "items"]

/-- The first wrapper key whose value is a list (src lines 138-141). -/
def findWrapperList : List (String × Json) → List String → Option (List Json)
  | _, [] => none
  | fs, k :: rest =>
    match (if fs.any (fun kv => kv.1 == k) then (fs.find? (fun kv => kv.1 == k)).map (fun kv => kv.2) else none) with
    | some (Json.arr xs) => some xs
    | _ => findWrapperList fs rest

/-- Conversation-list extraction (src lines 132-144): a list root is the
conversation list; a dict root is unwrapped through the first wrapper key
holding a list, and falls back to a one-element list holding the dict itself
when no wrapper key matches or the wrapped list is empty (an empty list is
falsy, so `if not conversations` re-wraps the dict); any other root yields the
empty list. -/
def extract_conversation_list (data : Json) : List Json :=
  match data with
  | Json.arr xs => xs
  | Json.obj fs =>
    match findWrapperList fs wrapper_keys with
    | some xs => if xs.isEmpty then [Json.obj fs] else xs
    | none => [Json.obj fs]
  | _ => []

/-- The outcome of loading and parsing the input file, the one genuinely
external input of `convert_conversations_to_md`. -/
inductive LoadResult where
  | fileNotFound : LoadResult
  | jsonError (msg : String) : LoadResult
  | otherError (msg : String) : LoadResult
  | ok (data : Json) : LoadResult

/-- `convert_conversations_to_md` (src lines 109-200): on a load failure,
report and stop with no conversion; on an empty conversation list, report and
stop; otherwise report the count and run the conversion loop, printing the
completion line only when no uncaught exception aborted the loop.  `fsE` is
the set of paths already existing in the output directory (the directory
itself is created before loading and is not an output transcript). -/
def convert_conversations_to_md (fail : Nat → Option String) (fsE : List String)
    (load : LoadResult) : RunOut :=
  match load with
  | LoadResult.fileNotFound =>
    ⟨fsE, [], ["Error: The file was not found."], none⟩
  | LoadResult.jsonError m =>
    ⟨fsE, [], ["Error: The file is not a valid JSON file.", "JSON Error: " ++ m], none⟩
  | LoadResult.otherError m =>
    ⟨fsE, [], ["Error reading file: " ++ m], none⟩
  | LoadResult.ok data =>
    let conversations := extract_conversation_list data
    if conversations.isEmpty then
      ⟨fsE, [], ["No conversations found in the JSON file."], none⟩
    else
      let n := conversations.length
      let r := driverLoop fail n fsE 0 conversations
      ⟨r.finalFs, r.files,
        ("Found " ++ decRepr n ++ " conversations to convert.") :: r.log ++
          (match r.aborted with
           | none => ["Conversion complete!"]
           | some _ => []),
        r.aborted⟩

/-- A conversation record on which phase A cannot abort: its title resolves,
without raising, to a string (the value `re.sub` requires). -/
def titleOk (c : Json) : Bool :=
  match extract_conversation_title c with
  | Except.ok (Json.str _) => true
  | _ => false

/-- A sufficient condition for `extract_conversation_title` not to raise on a
mapping: the message-derived fallback, when consulted, finds either no
messages or a first message that is a dict whose looked-up text value is a
string or a list (the values `[:50]` accepts). -/
def fallbackSafe (fs : List (String × Json)) : Bool :=
  match extract_messages (Json.obj fs) with
  | Except.ok [] => true
  | Except.ok (m :: _) =>
    (match pyDictGet m "content" (Json.str "") with
     | Except.error _ => false
     | Except.ok inner =>
       match pyDictGet m "text" inner with
       | Except.error _ => false
       | Except.ok (Json.str _) => true
       | Except.ok (Json.arr _) => true
       | Except.ok _ => false)
  | Except.error _ => false

/-- No element of the sequence is one of the message-list alias strings, so
the membership tests of `extract_messages` all fail and the sequence itself is
returned. -/
def msgAliasFree (xs : List Json) : Bool :=
  xs.all (fun j => match j with
    | Json.str s => !(message_fields.contains s)
    | _ => true)

/-- Written from the spec's words for the mapping case of `extract_messages`
(spec 4.2): "alias set in priority order — list-of-messages field names,
checked in that order, first present-and-sequence-typed wins", otherwise the
empty sequence.  Used to state the refinement in claim C9. -/
def messages_spec (fs : List (String × Json)) : List Json :=
  match message_fields.findSome? (fun a =>
    match (fs.find? (fun kv => kv.1 == a)).map (fun kv => kv.2) with
    | some (Json.arr xs) => some xs
    | _ => none) with
  | some xs => xs
  | none => []

/-- The message mapping with every timestamp-alias field removed, used to
state that a falsy timestamp renders exactly as an absent one. -/
def removeTsFields (fs : List (String × Json)) : List (String × Json) :=
  fs.filter (fun kv => !(timestamp_fields.contains kv.1))

/-- Does this Python computation return a value (as opposed to raising)? -/
def returnsValue {α : Type} : Except String α → Bool
  | Except.ok _ => true
  | Except.error _ => false

theorem strMk_data (l : List Char) : (String.mk l).data = l := rfl

theorem strMk_inj {l1 l2 : List Char} (h : String.mk l1 = String.mk l2) : l1 = l2 :=
  congrArg String.data h

theorem sanitizeCore_valid (f : String) :
    ∀ c ∈ sanitizeCore f, invalidFileChars.contains c = false := by
  intro c hc
  unfold sanitizeCore at hc
  rw [List.mem_reverse] at hc
  have hc := (List.dropWhile_sublist _).subset hc
  rw [List.mem_reverse] at hc
  have hc := (List.dropWhile_sublist _).subset hc
  rw [List.mem_map] at hc
  obtain ⟨c', hc', rfl⟩ := hc
  rw [List.mem_filter] at hc'
  obtain ⟨-, h2⟩ := hc'
  by_cases hsp : (c' == ' ') = true
  · simp only [hsp, if_pos]
    decide
  · simp only [Bool.not_eq_true] at hsp
    simp only [hsp, Bool.false_eq_true, if_false]
    simpa using h2

/-- Claim C2: for every input string, `sanitize_filename` returns a string
containing none of the characters \ / * ? : " < > |, of length at most 100,
and never empty; when the cleaned string is empty it returns the literal
fallback "Untitled".  The function is total over any input string (it is a
total Lean function). -/
theorem sanitize_filename_safe (filename : String) :
    ((sanitize_filename filename).data.all (fun c => !invalidFileChars.contains c)) = true ∧
    (sanitize_filename filename).length ≤ 100 ∧
    sanitize_filename filename ≠ "" ∧
    (sanitizeCore filename = [] → sanitize_filename filename = "Untitled") := by
  unfold sanitize_filename
  by_cases h : (sanitizeCore filename).isEmpty = true
  · rw [if_pos h]
    exact ⟨by decide, by decide, by decide, fun _ => rfl⟩
  · rw [if_neg h]
    have hne : sanitizeCore filename ≠ [] := by
      intro hco; rw [hco] at h; exact h rfl
    refine ⟨?_, ?_, ?_, ?_⟩
    · rw [List.all_eq_true]
      intro c hc
      have hc2 : c ∈ sanitizeCore filename := (List.take_sublist _ _).subset hc
      simpa using sanitizeCore_valid filename c hc2
    · show (List.take 100 (sanitizeCore filename)).length ≤ 100
      rw [List.length_take]
      exact Nat.min_le_left _ _
    · intro hcon
      have h2 := strMk_inj hcon
      rw [List.take_eq_nil_iff] at h2
      rcases h2 with h1 | h1
      · exact absurd h1 (by decide)
      · exact hne h1
    · intro hco
      exact absurd hco hne

/-- Claim C8: a message whose first matched text-like field holds the sequence
[{"text": A}, B, {"text": C}] renders the text block A\nB\nC: mapping parts
contribute their "text" value, string parts contribute themselves, in order,
joined by newline separators.  (With no sender or timestamp field, the full
rendering is `**Unknown:**` followed by the joined block.) -/
theorem format_message_joins_parts (a b c : String) :
    format_message (Json.obj [("text", Json.arr
      [Json.obj [("text", Json.str a)], Json.str b, Json.obj [("text", Json.str c)]])]) =
    Except.ok ("**Unknown:**" ++ "\n" ++ (a ++ "\n" ++ b ++ "\n" ++ c) ++ "\n") := by
  have h : a ++ "\n" ++ b ++ "\n" ++ c = a ++ "\n" ++ (b ++ "\n" ++ c) := by
    simp [String.append_assoc]
  rw [h]
  rfl

/-- Claim C7: when the input file is missing or contains malformed JSON (or
any other read error occurs), the driver reports a human-readable error
message, writes no output transcript files, does not crash (no uncaught
exception), and does not proceed to conversion: the run outcome is exactly
the untouched file system, no files, and the error report. -/
theorem convert_load_error_fatal (fail : Nat → Option String) (fsE : List String)
    (m m' : String) :
    convert_conversations_to_md fail fsE LoadResult.fileNotFound =
      ⟨fsE, [], ["Error: The file was not found."], none⟩ ∧
    convert_conversations_to_md fail fsE (LoadResult.jsonError m) =
      ⟨fsE, [], ["Error: The file is not a valid JSON file.", "JSON Error: " ++ m], none⟩ ∧
    convert_conversations_to_md fail fsE (LoadResult.otherError m') =
      ⟨fsE, [], ["Error reading file: " ++ m'], none⟩ :=
  ⟨rfl, rfl, rfl⟩

theorem find?_of_any {fs : List (String × Json)} {f : String}
    (h : fs.any (fun kv => kv.1 == f) = true) :
    ∃ kv, fs.find? (fun kv => kv.1 == f) = some kv := by
  obtain ⟨x, hx, hpx⟩ := List.any_eq_true.mp h
  exact Option.isSome_iff_exists.mp (List.find?_isSome.mpr ⟨x, hx, hpx⟩)

theorem findListField_obj (fs : List (String × Json)) (flds : List String) :
    findListField (Json.obj fs) flds =
      Except.ok (flds.findSome? (fun a =>
        match (fs.find? (fun kv => kv.1 == a)).map (fun kv => kv.2) with
        | some (Json.arr xs) => some xs
        | _ => none)) := by
  induction flds with
  | nil => rfl
  | cons f rest ih =>
    by_cases h : fs.any (fun kv => kv.1 == f) = true
    · obtain ⟨kv, hkv⟩ := find?_of_any h
      cases hv : kv.2 with
      | arr xs =>
        simp [findListField, pyContains, pyGetItem, h, hkv, hv, List.findSome?_cons]
      | null => simp [findListField, pyContains, pyGetItem, h, hkv, hv, List.findSome?_cons, ih]
      | bool b => simp [findListField, pyContains, pyGetItem, h, hkv, hv, List.findSome?_cons, ih]
      | num n => simp [findListField, pyContains, pyGetItem, h, hkv, hv, List.findSome?_cons, ih]
      | str s => simp [findListField, pyContains, pyGetItem, h, hkv, hv, List.findSome?_cons, ih]
      | obj o => simp [findListField, pyContains, pyGetItem, h, hkv, hv, List.findSome?_cons, ih]
    · rw [Bool.not_eq_true] at h
      have hfind : fs.find? (fun kv => kv.1 == f) = none := by
        rw [List.find?_eq_none]
        intro x hx
        rw [List.any_eq_false] at h
        exact fun hpx => h x hx hpx
      simp [findListField, pyContains, h, hfind, List.findSome?_cons, ih]

theorem extract_messages_obj (fs : List (String × Json)) :
    extract_messages (Json.obj fs) = Except.ok (messages_spec fs) := by
  unfold extract_messages messages_spec
  rw [findListField_obj]
  cases List.findSome? (fun a =>
      match (fs.find? (fun kv => kv.1 == a)).map (fun kv => kv.2) with
      | some (Json.arr xs) => some xs
      | _ => none) message_fields with
  | some xs => rfl
  | none => rfl

theorem findTruthyField_obj (fs : List (String × Json)) (flds : List String) :
    ∃ r, findTruthyField (Json.obj fs) flds = Except.ok r := by
  induction flds with
  | nil => exact ⟨none, rfl⟩
  | cons f rest ih =>
    by_cases h : fs.any (fun kv => kv.1 == f) = true
    · obtain ⟨kv, hkv⟩ := find?_of_any h
      by_cases ht : truthy kv.2 = true
      · exact ⟨some kv.2, by simp [findTruthyField, pyContains, pyGetItem, h, hkv, ht]⟩
      · obtain ⟨r, hr⟩ := ih
        rw [Bool.not_eq_true] at ht
        exact ⟨r, by simp [findTruthyField, pyContains, pyGetItem, h, hkv, ht, hr]⟩
    · obtain ⟨r, hr⟩ := ih
      rw [Bool.not_eq_true] at h
      exact ⟨r, by simp [findTruthyField, pyContains, h, hr]⟩

theorem extract_title_obj_safe (fs : List (String × Json)) (h : fallbackSafe fs = true) :
    returnsValue (extract_conversation_title (Json.obj fs)) = true := by
  unfold extract_conversation_title
  obtain ⟨r, hr⟩ := findTruthyField_obj fs title_fields
  rw [hr]
  cases r with
  | some v => rfl
  | none =>
    unfold fallbackSafe at h
    cases hm : extract_messages (Json.obj fs) with
    | error e => rw [hm] at h; simp at h
    | ok ms =>
      rw [hm] at h
      cases ms with
      | nil => rfl
      | cons m rest =>
        have h2 : (match pyDictGet m "content" (Json.str "") with
          | Except.error _ => false
          | Except.ok inner =>
            match pyDictGet m "text" inner with
            | Except.error _ => false
            | Except.ok (Json.str _) => true
            | Except.ok (Json.arr _) => true
            | Except.ok _ => false) = true := h
        cases hc : pyDictGet m "content" (Json.str "") with
        | error e => rw [hc] at h2; simp at h2
        | ok inner =>
          rw [hc] at h2
          have h3 : (match pyDictGet m "text" inner with
            | Except.error _ => false
            | Except.ok (Json.str _) => true
            | Except.ok (Json.arr _) => true
            | Except.ok _ => false) = true := h2
          cases htx : pyDictGet m "text" inner with
          | error e => rw [htx] at h3; simp at h3
          | ok tv =>
            rw [htx] at h3
            cases tv with
            | str s =>
              by_cases h5 : truthy (Json.str (String.mk (s.data.take 50))) = true
              · simp [hc, htx, pySlice50, h5, returnsValue]
              · rw [Bool.not_eq_true] at h5
                simp [hc, htx, pySlice50, h5, returnsValue]
            | arr xs =>
              by_cases h5 : truthy (Json.arr (xs.take 50)) = true
              · simp [hc, htx, pySlice50, h5, returnsValue]
              · rw [Bool.not_eq_true] at h5
                simp [hc, htx, pySlice50, h5, returnsValue]
            | null => simp at h3
            | bool b => simp at h3
            | num n => simp at h3
            | obj o => simp at h3

/-- Claim C5 (corrected): how total the Structure Normalizer really is.
`extract_messages` never raises on a mapping (it returns the first
sequence-valued alias field, or empty), and `extract_conversation_title`
never raises on a mapping whose message-derived fallback is safe — no
messages, or a first message that is a dict whose text value is a string or a
list.  (On non-iterable inputs both raise a TypeError, and the title
extraction can raise even on mappings; conversation-list extraction involves
no raising operation and is embedded as the total function
`extract_conversation_list`.) -/
theorem normalizer_totality :
    (∀ fs : List (String × Json), extract_messages (Json.obj fs) = Except.ok (messages_spec fs)) ∧
    (∀ fs : List (String × Json), fallbackSafe fs = true →
      returnsValue (extract_conversation_title (Json.obj fs)) = true) :=
  ⟨fun fs => extract_messages_obj fs, fun fs h => extract_title_obj_safe fs h⟩

/-- Witness for claim C5's theorem at a concrete mapping whose fallback is
consulted and safe. -/
theorem normalizer_totality_witness :
    fallbackSafe [("messages", Json.arr [])] = true ∧
    returnsValue (extract_conversation_title
      (Json.obj [("messages", Json.arr [])])) = true :=
  ⟨rfl, normalizer_totality.2 [("messages", Json.arr [])] rfl⟩

/-- Counterexample for claim C5 as stated: the Structure Normalizer operations
are not total over every JSON value.  `extract_messages` and
`extract_conversation_title` raise a TypeError on the number 0 (Python `in`
requires an iterable), and the title extraction raises an AttributeError even
on a mapping whose first message is a plain string (`.get` needs a dict). -/
theorem normalizer_not_total :
    extract_messages (Json.num 0) = Except.error errNotIterable ∧
    extract_conversation_title (Json.num 0) = Except.error errNotIterable ∧
    extract_conversation_title (Json.obj [("messages", Json.arr [Json.str "hi"])]) =
      Except.error errNoGet :=
  ⟨rfl, rfl, rfl⟩

theorem msgAliasFree_any {xs : List Json} (h : msgAliasFree xs = true) :
    ∀ f ∈ message_fields,
      xs.any (fun j => match j with | Json.str s => s == f | _ => false) = false := by
  intro f hf
  rw [List.any_eq_false]
  intro j hj
  unfold msgAliasFree at h
  rw [List.all_eq_true] at h
  have hja := h j hj
  cases j with
  | str s =>
    simp only [Bool.not_eq_true'] at hja
    intro hsf
    have hsf2 : (s == f) = true := hsf
    have hseq : s = f := by simpa using hsf2
    subst hseq
    have hcon : message_fields.contains s = true :=
      List.contains_iff_exists_mem_beq.mpr ⟨s, hf, by simp⟩
    rw [hja] at hcon
    exact Bool.false_ne_true hcon
  | null => simp
  | bool b => simp
  | num n => simp
  | arr a => simp
  | obj o => simp

theorem findListField_arr_none (xs : List Json) (flds : List String)
    (hall : ∀ f ∈ flds,
      xs.any (fun j => match j with | Json.str s => s == f | _ => false) = false) :
    findListField (Json.arr xs) flds = Except.ok none := by
  induction flds with
  | nil => rfl
  | cons f rest ih =>
    have h1 := hall f (by simp)
    simp only [findListField, pyContains, h1, Bool.false_eq_true, if_false]
    exact ih (fun g hg => hall g (by simp [hg]))

/-- Claim C9 (corrected): on a mapping, `extract_messages` returns the value
of the first field among the ordered aliases chat_messages, messages,
conversation, history whose value is a sequence, and otherwise the empty
sequence (the spec-worded `messages_spec`); a conversation record that is
itself a sequence is returned directly provided none of its elements is one
of those alias strings (otherwise the membership test succeeds and the
string subscript raises a TypeError). -/
theorem extract_messages_shapes :
    (∀ xs : List Json, msgAliasFree xs = true →
      extract_messages (Json.arr xs) = Except.ok xs) ∧
    (∀ fs : List (String × Json),
      extract_messages (Json.obj fs) = Except.ok (messages_spec fs)) := by
  constructor
  · intro xs h
    unfold extract_messages
    rw [findListField_arr_none xs message_fields (msgAliasFree_any h)]
  · intro fs
    exact extract_messages_obj fs

/-- Witness for claim C9's theorem at a concrete sequence free of alias
strings. -/
theorem extract_messages_shapes_witness :
    msgAliasFree [Json.str "hi", Json.num 3] = true ∧
    extract_messages (Json.arr [Json.str "hi", Json.num 3]) =
      Except.ok [Json.str "hi", Json.num 3] :=
  ⟨rfl, extract_messages_shapes.1 [Json.str "hi", Json.num 3] rfl⟩

/-- Counterexample for claim C9 as stated: a conversation record that is
itself a sequence is not always returned directly — when the sequence
contains one of the alias strings (here "messages"), the Python membership
test `field in conversation` succeeds and `conversation[field]` raises a
TypeError instead of returning the sequence. -/
theorem extract_messages_arr_raises :
    extract_messages (Json.arr [Json.str "messages"]) = Except.error errStrIndex :=
  rfl

theorem any_filter_of_imp {α : Type} (p q : α → Bool) (h : ∀ x, q x = true → p x = true)
    (l : List α) : (l.filter p).any q = l.any q := by
  induction l with
  | nil => rfl
  | cons x t ih =>
    by_cases hp : p x = true
    · simp [List.filter_cons, hp, ih]
    · have hq : q x = false := by
        cases hqx : q x
        · rfl
        · exact absurd (h x hqx) hp
      rw [Bool.not_eq_true] at hp
      simp [List.filter_cons, hp, hq, ih]

theorem find?_filter_of_imp {α : Type} (p q : α → Bool) (h : ∀ x, q x = true → p x = true)
    (l : List α) : (l.filter p).find? q = l.find? q := by
  induction l with
  | nil => rfl
  | cons x t ih =>
    by_cases hp : p x = true
    · by_cases hqx : q x = true
      · simp [List.filter_cons, hp, List.find?_cons, hqx]
      · rw [Bool.not_eq_true] at hqx
        simp [List.filter_cons, hp, List.find?_cons, hqx, ih]
    · have hq : q x = false := by
        cases hqx : q x
        · rfl
        · exact absurd (h x hqx) hp
      rw [Bool.not_eq_true] at hp
      simp [List.filter_cons, hp, List.find?_cons, hq, ih]

theorem removeTs_keeps_key {f : String}
    (hf : timestamp_fields.contains f = false) :
    ∀ kv : String × Json, (kv.1 == f) = true → (!(timestamp_fields.contains kv.1)) = true := by
  intro kv hkv
  have : kv.1 = f := by simpa using hkv
  rw [this, hf]
  rfl

theorem findPresentField_removeTs (fs : List (String × Json)) (flds : List String)
    (h : ∀ f ∈ flds, timestamp_fields.contains f = false) :
    findPresentField (Json.obj (removeTsFields fs)) flds =
      findPresentField (Json.obj fs) flds := by
  induction flds with
  | nil => rfl
  | cons f rest ih =>
    have hf := h f (by simp)
    have hany := any_filter_of_imp (fun kv => !(timestamp_fields.contains kv.1))
      (fun kv => kv.1 == f) (removeTs_keeps_key hf) fs
    have hfind := find?_filter_of_imp (fun kv => !(timestamp_fields.contains kv.1))
      (fun kv => kv.1 == f) (removeTs_keeps_key hf) fs
    have ih2 := ih (fun g hg => h g (by simp [hg]))
    rw [removeTsFields] at ih2
    simp only [findPresentField, pyContains, pyGetItem, removeTsFields, hany, hfind, ih2]

theorem resolve_timestamp_removeTs (fs : List (String × Json)) :
    resolve_timestamp (Json.obj (removeTsFields fs)) = Except.ok none := by
  unfold resolve_timestamp
  have hgen : ∀ flds : List String, (∀ f ∈ flds, f ∈ timestamp_fields) →
      findPresentField (Json.obj (removeTsFields fs)) flds = Except.ok none := by
    intro flds
    induction flds with
    | nil => intro _; rfl
    | cons f rest ih =>
      intro hall
      have hf : f ∈ timestamp_fields := hall f (by simp)
      have hany : (removeTsFields fs).any (fun kv => kv.1 == f) = false := by
        rw [List.any_eq_false]
        intro kv hkv
        rw [removeTsFields, List.mem_filter] at hkv
        obtain ⟨-, hkv2⟩ := hkv
        intro hkf
        have : kv.1 = f := by simpa using hkf
        rw [Bool.not_eq_true'] at hkv2
        rw [this] at hkv2
        have hcon : timestamp_fields.contains f = true :=
          List.contains_iff_exists_mem_beq.mpr ⟨f, hf, by simp⟩
        rw [hkv2] at hcon
        exact Bool.false_ne_true hcon
      simp only [findPresentField, pyContains, hany, Bool.false_eq_true, if_false]
      exact ih (fun g hg => hall g (by simp [hg]))
  exact hgen timestamp_fields (fun f hf => hf)

/-- Claim C10: when the first matched timestamp-like field holds a falsy
value (numeric zero, empty string, null — any value Python regards as
falsy), `format_message` omits the timestamp annotation entirely, rendering
exactly as if no timestamp field were present at all (the message with every
timestamp alias removed). -/
theorem format_message_falsy_timestamp (fs : List (String × Json)) (v : Json)
    (hts : resolve_timestamp (Json.obj fs) = Except.ok (some v))
    (hfalsy : truthy v = false) :
    format_message (Json.obj fs) = format_message (Json.obj (removeTsFields fs)) := by
  unfold format_message
  have hsender : resolve_sender (Json.obj (removeTsFields fs)) = resolve_sender (Json.obj fs) := by
    unfold resolve_sender
    rw [findPresentField_removeTs fs sender_fields (by decide)]
  have htext : resolve_text (Json.obj (removeTsFields fs)) = resolve_text (Json.obj fs) := by
    unfold resolve_text
    rw [findPresentField_removeTs fs text_fields (by decide)]
  rw [hsender, htext, resolve_timestamp_removeTs, hts]
  cases resolve_sender (Json.obj fs) with
  | error e => rfl
  | ok sender =>
    cases resolve_text (Json.obj fs) with
    | error e => rfl
    | ok text => simp [hfalsy]

/-- Witness for claim C10's theorem at a message whose timestamp field holds
the falsy value 0. -/
theorem format_message_falsy_timestamp_witness :
    resolve_timestamp (Json.obj [("timestamp", Json.num 0), ("text", Json.str "T")]) =
      Except.ok (some (Json.num 0)) ∧
    truthy (Json.num 0) = false ∧
    format_message (Json.obj [("timestamp", Json.num 0), ("text", Json.str "T")]) =
      format_message (Json.obj
        (removeTsFields [("timestamp", Json.num 0), ("text", Json.str "T")])) :=
  ⟨rfl, rfl,
   format_message_falsy_timestamp [("timestamp", Json.num 0), ("text", Json.str "T")]
     (Json.num 0) rfl rfl⟩

theorem strList_contains_iff (l : List String) (a : String) :
    l.contains a = true ↔ a ∈ l := by
  rw [List.contains_iff_exists_mem_beq]
  constructor
  · rintro ⟨x, hx, hbeq⟩
    have hax : a = x := by simpa using hbeq
    rw [hax]
    exact hx
  · intro h
    exact ⟨a, h, by simp⟩

theorem decDigitsGo_mono : ∀ f1 f2 n : Nat, n < f1 → n < f2 →
    decDigitsGo f1 n = decDigitsGo f2 n := by
  intro f1
  induction f1 with
  | zero => intro f2 n h1 _; omega
  | succ f1 ih =>
    intro f2 n h1 h2
    cases f2 with
    | zero => omega
    | succ f2 =>
      simp only [decDigitsGo]
      by_cases h10 : n < 10
      · simp [h10]
      · have hd : n / 10 < n := Nat.div_lt_self (by omega) (by omega)
        have hrec := ih f2 (n / 10) (by omega) (by omega)
        simp [h10, hrec]

theorem decDigits_unfold (n : Nat) :
    decDigits n = if n < 10 then [digitChar n]
      else decDigits (n / 10) ++ [digitChar (n % 10)] := by
  unfold decDigits
  by_cases h : n < 10
  · simp [decDigitsGo, h]
  · have hd : n / 10 < n := Nat.div_lt_self (by omega) (by omega)
    simp only [decDigitsGo, h, if_false]
    rw [decDigitsGo_mono n (n / 10 + 1) (n / 10) (by omega) (by omega)]
    rfl

theorem decDigits_ne_nil (n : Nat) : decDigits n ≠ [] := by
  rw [decDigits_unfold]
  by_cases h : n < 10
  · simp [h]
  · simp [h]

theorem digitChar_inj_lt : ∀ m : Nat, m < 10 → ∀ k : Nat, k < 10 →
    digitChar m = digitChar k → m = k := by decide

theorem decDigits_inj : ∀ m k : Nat, decDigits m = decDigits k → m = k := by
  intro m
  induction m using Nat.strong_induction_on with
  | _ m ih =>
    intro k h
    have hm2 := decDigits_unfold m
    have hk2 := decDigits_unfold k
    rw [hm2, hk2] at h
    by_cases hm : m < 10 <;> by_cases hk : k < 10
    · rw [if_pos hm, if_pos hk] at h
      exact digitChar_inj_lt m hm k hk (List.singleton_injective h)
    · rw [if_pos hm, if_neg hk] at h
      cases hl : decDigits (k / 10) with
      | nil => exact absurd hl (decDigits_ne_nil _)
      | cons x t =>
        rw [hl] at h
        simp at h
    · rw [if_neg hm, if_pos hk] at h
      cases hl : decDigits (m / 10) with
      | nil => exact absurd hl (decDigits_ne_nil _)
      | cons x t =>
        rw [hl] at h
        simp at h
    · rw [if_neg hm, if_neg hk] at h
      have hpair := List.append_inj' h (by simp)
      obtain ⟨hinit, hlast⟩ := hpair
      have hdiv : m / 10 = k / 10 :=
        ih (m / 10) (Nat.div_lt_self (by omega) (by omega)) (k / 10) hinit
      have hmod : m % 10 = k % 10 := by
        have hc := List.singleton_injective hlast
        exact digitChar_inj_lt (m % 10) (Nat.mod_lt _ (by omega)) (k % 10)
          (Nat.mod_lt _ (by omega)) hc
      omega

theorem decRepr_inj {i j : Nat} (h : decRepr i = decRepr j) : i = j :=
  decDigits_inj i j (strMk_inj h)

theorem collisionName_inj (base ext : String) {i j : Nat}
    (h : collisionName base ext i = collisionName base ext j) : i = j := by
  unfold collisionName at h
  have hd := congrArg String.data h
  simp only [String.data_append, List.append_assoc] at hd
  have h1 := List.append_cancel_left hd
  have h2 := List.append_cancel_left h1
  have h3 := List.append_cancel_right h2
  exact decDigits_inj i j h3

theorem exists_free_candidate (fsE : List String) (base ext : String) (counter : Nat) :
    ∃ j < fsE.length + 1, collisionName base ext (counter + j) ∉ fsE := by
  by_contra hcon
  push_neg at hcon
  have hsub : ∀ j ∈ Finset.range (fsE.length + 1),
      collisionName base ext (counter + j) ∈ fsE.toFinset := by
    intro j hj
    rw [List.mem_toFinset]
    exact hcon j (Finset.mem_range.mp hj)
  have hinj : Set.InjOn (fun j => collisionName base ext (counter + j))
      ↑(Finset.range (fsE.length + 1)) := by
    intro a _ b _ hab
    have := collisionName_inj base ext hab
    omega
  have hcard := Finset.card_le_card_of_injOn
    (fun j => collisionName base ext (counter + j)) hsub hinj
  rw [Finset.card_range] at hcard
  have h2 := fsE.toFinset_card_le
  omega

theorem collisionLoop_not_mem (fsE : List String) (base ext : String) :
    ∀ fuel counter, (∃ j < fuel, collisionName base ext (counter + j) ∉ fsE) →
    collisionLoop fsE base ext counter fuel ∉ fsE := by
  intro fuel
  induction fuel with
  | zero =>
    intro counter h
    obtain ⟨j, hj, -⟩ := h
    omega
  | succ fuel ih =>
    intro counter h
    obtain ⟨j, hj, hfree⟩ := h
    simp only [collisionLoop]
    by_cases hc : fsE.contains (collisionName base ext counter) = true
    · rw [if_pos hc]
      apply ih
      have hj0 : j ≠ 0 := by
        intro h0
        rw [h0, Nat.add_zero] at hfree
        exact hfree ((strList_contains_iff _ _).mp hc)
      refine ⟨j - 1, by omega, ?_⟩
      have harith : counter + 1 + (j - 1) = counter + j := by omega
      rw [harith]
      exact hfree
    · rw [Bool.not_eq_true] at hc
      rw [hc]
      simp only [Bool.false_eq_true, if_false]
      intro hmem
      rw [← strList_contains_iff] at hmem
      rw [hc] at hmem
      exact Bool.false_ne_true hmem

theorem resolveCollision_not_mem (fsE : List String) (orig : String) :
    resolveCollision fsE orig ∉ fsE := by
  unfold resolveCollision
  by_cases h : fsE.contains orig = true
  · rw [if_pos h]
    exact collisionLoop_not_mem fsE (splitext orig).1 (splitext orig).2 (fsE.length + 1) 1
      (exists_free_candidate fsE (splitext orig).1 (splitext orig).2 1)
  · rw [Bool.not_eq_true] at h
    rw [h]
    simp only [Bool.false_eq_true, if_false]
    intro hmem
    rw [← strList_contains_iff] at hmem
    rw [h] at hmem
    exact Bool.false_ne_true hmem

theorem phaseA_of_titleOk {c : Json} (h : titleOk c = true) (nConvs i : Nat) :
    ∃ s, phaseA nConvs i c = Except.ok (s, sanitize_filename s) := by
  unfold titleOk at h
  cases he : extract_conversation_title c with
  | error e => rw [he] at h; simp at h
  | ok t0 =>
    rw [he] at h
    cases t0 with
    | str s =>
      unfold phaseA
      rw [he]
      by_cases hcond : ((s == "Untitled_Conversation") && decide (1 < nConvs)) = true
      · exact ⟨"Conversation_" ++ decRepr (i + 1), by simp [hcond]⟩
      · rw [Bool.not_eq_true] at hcond
        exact ⟨s, by simp [hcond]⟩
    | null => simp at h
    | bool b => simp at h
    | num n => simp at h
    | arr a => simp at h
    | obj o => simp at h

theorem processConversation_write_fail {c : Json} (h : titleOk c = true)
    (nConvs i : Nat) (msg : String) (fsE : List String) :
    processConversation nConvs i (some msg) fsE c =
      Except.ok (fsE, none,
        ["Error processing conversation " ++ decRepr (i + 1) ++ ": " ++ msg]) := by
  obtain ⟨s, hp⟩ := phaseA_of_titleOk h nConvs i
  unfold processConversation
  rw [hp]

theorem processConversation_no_fail {c : Json} (h : titleOk c = true)
    (nConvs i : Nat) (fsE : List String) :
    ∃ md content lg, md ∉ fsE ∧
      processConversation nConvs i none fsE c =
        Except.ok (md :: fsE, some (md, content), lg) := by
  obtain ⟨s, hp⟩ := phaseA_of_titleOk h nConvs i
  have key : processConversation nConvs i none fsE c =
      (match (renderContent s c).2 with
       | some e => Except.ok (resolveCollision fsE (sanitize_filename s ++ ".md") :: fsE,
           some (resolveCollision fsE (sanitize_filename s ++ ".md"), (renderContent s c).1),
           ["Error processing conversation " ++ decRepr (i + 1) ++ ": " ++ e])
       | none => Except.ok (resolveCollision fsE (sanitize_filename s ++ ".md") :: fsE,
           some (resolveCollision fsE (sanitize_filename s ++ ".md"), (renderContent s c).1),
           ["Successfully created: " ++
             resolveCollision fsE (sanitize_filename s ++ ".md")])) := by
    unfold processConversation
    rw [hp]
  rw [key]
  cases hrc : (renderContent s c).2 with
  | some e =>
    exact ⟨resolveCollision fsE (sanitize_filename s ++ ".md"), (renderContent s c).1,
      ["Error processing conversation " ++ decRepr (i + 1) ++ ": " ++ e],
      resolveCollision_not_mem fsE (sanitize_filename s ++ ".md"), rfl⟩
  | none =>
    exact ⟨resolveCollision fsE (sanitize_filename s ++ ".md"), (renderContent s c).1,
      ["Successfully created: " ++ resolveCollision fsE (sanitize_filename s ++ ".md")],
      resolveCollision_not_mem fsE (sanitize_filename s ++ ".md"), rfl⟩

theorem processConversation_shape {nConvs i : Nat} {fail : Option String}
    {fsE : List String} {c : Json} {out : List String × Option (String × String) × List String}
    (h : processConversation nConvs i fail fsE c = Except.ok out) :
    (out.1 = fsE ∧ out.2.1 = none) ∨
    (∃ md content, md ∉ fsE ∧ out.1 = md :: fsE ∧ out.2.1 = some (md, content)) := by
  unfold processConversation at h
  cases hp : phaseA nConvs i c with
  | error e => rw [hp] at h; exact absurd h (by simp)
  | ok ts =>
    rw [hp] at h
    cases fail with
    | some msg =>
      left
      have h2 : Except.ok (ε := String) (fsE, none,
          ["Error processing conversation " ++ decRepr (i + 1) ++ ": " ++ msg]) =
          Except.ok out := h
      have hout := Except.ok.inj h2
      rw [← hout]
      exact ⟨rfl, rfl⟩
    | none =>
      right
      have h2 : (match (renderContent ts.1 c).2 with
        | some e => Except.ok (ε := String)
            (resolveCollision fsE (ts.2 ++ ".md") :: fsE,
             some (resolveCollision fsE (ts.2 ++ ".md"), (renderContent ts.1 c).1),
             ["Error processing conversation " ++ decRepr (i + 1) ++ ": " ++ e])
        | none => Except.ok
            (resolveCollision fsE (ts.2 ++ ".md") :: fsE,
             some (resolveCollision fsE (ts.2 ++ ".md"), (renderContent ts.1 c).1),
             ["Successfully created: " ++ resolveCollision fsE (ts.2 ++ ".md")])) =
          Except.ok out := h
      cases hrc : (renderContent ts.1 c).2 with
      | some e =>
        rw [hrc] at h2
        have hout := Except.ok.inj h2
        exact ⟨resolveCollision fsE (ts.2 ++ ".md"), (renderContent ts.1 c).1,
          resolveCollision_not_mem fsE (ts.2 ++ ".md"), by rw [← hout], by rw [← hout]⟩
      | none =>
        rw [hrc] at h2
        have hout := Except.ok.inj h2
        exact ⟨resolveCollision fsE (ts.2 ++ ".md"), (renderContent ts.1 c).1,
          resolveCollision_not_mem fsE (ts.2 ++ ".md"), by rw [← hout], by rw [← hout]⟩

theorem driverLoop_len (cs : List Json) :
    ∀ (fsE : List String) (i n : Nat), (∀ c ∈ cs, titleOk c = true) →
    (driverLoop (fun _ => none) n fsE i cs).files.length = cs.length := by
  induction cs with
  | nil => intro fsE i n _; rfl
  | cons c rest ih =>
    intro fsE i n hall
    obtain ⟨md, content, lg, hmd, heq⟩ :=
      processConversation_no_fail (hall c (by simp)) n i fsE
    have hloop : driverLoop (fun _ => none) n fsE i (c :: rest) =
        ⟨(driverLoop (fun _ => none) n (md :: fsE) (i + 1) rest).finalFs,
         (md, content) :: (driverLoop (fun _ => none) n (md :: fsE) (i + 1) rest).files,
         lg ++ (driverLoop (fun _ => none) n (md :: fsE) (i + 1) rest).log,
         (driverLoop (fun _ => none) n (md :: fsE) (i + 1) rest).aborted⟩ := by
      simp only [driverLoop, heq]
      rfl
    rw [hloop]
    simp only [List.length_cons]
    rw [ih (md :: fsE) (i + 1) n (fun x hx => hall x (by simp [hx]))]

theorem driverLoop_nodup (fail : Nat → Option String) (n : Nat) (cs : List Json) :
    ∀ (fsE : List String) (i : Nat),
      ((driverLoop fail n fsE i cs).files.map Prod.fst).Nodup ∧
      (∀ p ∈ (driverLoop fail n fsE i cs).files.map Prod.fst, p ∉ fsE) := by
  induction cs with
  | nil =>
    intro fsE i
    exact ⟨List.nodup_nil, by simp [driverLoop]⟩
  | cons c rest ih =>
    intro fsE i
    cases hp : processConversation n i (fail i) fsE c with
    | error e =>
      constructor
      · simp [driverLoop, hp]
      · simp [driverLoop, hp]
    | ok out =>
      rcases processConversation_shape hp with ⟨hfs, hfo⟩ | ⟨md, content, hmd, hfs, hfo⟩
      · have hloop : driverLoop fail n fsE i (c :: rest) =
            ⟨(driverLoop fail n fsE (i + 1) rest).finalFs,
             (driverLoop fail n fsE (i + 1) rest).files,
             out.2.2 ++ (driverLoop fail n fsE (i + 1) rest).log,
             (driverLoop fail n fsE (i + 1) rest).aborted⟩ := by
          simp only [driverLoop, hp]
          rw [hfs, hfo]
          rfl
        rw [hloop]
        exact ih fsE (i + 1)
      · have hloop : driverLoop fail n fsE i (c :: rest) =
            ⟨(driverLoop fail n (md :: fsE) (i + 1) rest).finalFs,
             (md, content) :: (driverLoop fail n (md :: fsE) (i + 1) rest).files,
             out.2.2 ++ (driverLoop fail n (md :: fsE) (i + 1) rest).log,
             (driverLoop fail n (md :: fsE) (i + 1) rest).aborted⟩ := by
          simp only [driverLoop, hp]
          rw [hfs, hfo]
          rfl
        rw [hloop]
        obtain ⟨ihn, ihm⟩ := ih (md :: fsE) (i + 1)
        constructor
        · simp only [List.map_cons]
          refine List.Nodup.cons ?_ ihn
          intro hmem
          exact (ihm md hmem) (by simp)
        · intro p hp2
          simp only [List.map_cons, List.mem_cons] at hp2
          rcases hp2 with hpe | hpm
          · rw [hpe]; exact hmd
          · intro hpfs
            exact (ihm p hpm) (by simp [hpfs])

/-- Claim C1 (corrected): one output transcript per conversation record, on
the domain where the driver does not crash.  Provided every record in the
extracted conversation list resolves, without raising, to a string title
(`titleOk` — true in particular of a record with no recognizable title and no
recognizable messages, which gets the placeholder title), and no I/O failure
is injected, the run produces exactly as many transcript files as there are
records — one each, never zero and never more than one. -/
theorem convert_one_file_per_record (fsE : List String) (data : Json)
    (h : ∀ c ∈ extract_conversation_list data, titleOk c = true) :
    (convert_conversations_to_md (fun _ => none) fsE (LoadResult.ok data)).files.length =
      (extract_conversation_list data).length := by
  have key : convert_conversations_to_md (fun _ => none) fsE (LoadResult.ok data) =
      (if (extract_conversation_list data).isEmpty = true then
        ⟨fsE, [], ["No conversations found in the JSON file."], none⟩
      else
        let n := (extract_conversation_list data).length
        let r := driverLoop (fun _ => none) n fsE 0 (extract_conversation_list data)
        ⟨r.finalFs, r.files,
          ("Found " ++ decRepr n ++ " conversations to convert.") :: r.log ++
            (match r.aborted with | none => ["Conversion complete!"] | some _ => []),
          r.aborted⟩) := rfl
  rw [key]
  by_cases he : (extract_conversation_list data).isEmpty = true
  · rw [if_pos he]
    rw [List.isEmpty_iff] at he
    rw [he]
    rfl
  · rw [if_neg he]
    exact driverLoop_len (extract_conversation_list data) fsE 0
      (extract_conversation_list data).length h

/-- Witness for claim C1's theorem: a single record with no recognizable
title and no recognizable messages still yields exactly one transcript. -/
theorem convert_one_file_per_record_witness :
    titleOk (Json.obj []) = true ∧
    (convert_conversations_to_md (fun _ => none) []
      (LoadResult.ok (Json.arr [Json.obj []]))).files.length = 1 :=
  ⟨rfl, convert_one_file_per_record [] (Json.arr [Json.obj []])
    (fun c hc => by
      rw [show extract_conversation_list (Json.arr [Json.obj []]) = [Json.obj []] from rfl,
        List.mem_singleton] at hc
      rw [hc]
      rfl)⟩

/-- Counterexample for claim C1 as stated: a conversation record that is the
JSON null produces zero output transcripts — title resolution raises an
uncaught TypeError (`'name' in None`), aborting the run before any file is
created for that record. -/
theorem convert_record_zero_files :
    (extract_conversation_list (Json.arr [Json.null])).length = 1 ∧
    (convert_conversations_to_md (fun _ => none) []
      (LoadResult.ok (Json.arr [Json.null]))).files = [] ∧
    (convert_conversations_to_md (fun _ => none) []
      (LoadResult.ok (Json.arr [Json.null]))).aborted = some errNotIterable :=
  ⟨rfl, rfl, rfl⟩

/-- Claim C4: all generated output filenames of one run are pairwise distinct
and distinct from every path that already existed in the output directory;
collision resolution never returns an existing path (it appends _1, _2, ...
until an unused one is found); and converting two conversations with the same
title in one run yields title.md and then title_1.md. -/
theorem convert_filenames_distinct :
    (∀ (fail : Nat → Option String) (fsE : List String) (load : LoadResult),
      ((convert_conversations_to_md fail fsE load).files.map Prod.fst).Nodup ∧
      (∀ p ∈ (convert_conversations_to_md fail fsE load).files.map Prod.fst, p ∉ fsE)) ∧
    (∀ (fsE : List String) (orig : String), resolveCollision fsE orig ∉ fsE) ∧
    ((convert_conversations_to_md (fun _ => none) []
      (LoadResult.ok (Json.arr [Json.obj [("name", Json.str "title")],
        Json.obj [("name", Json.str "title")]]))).files.map Prod.fst =
      ["title.md", "title_1.md"]) := by
  refine ⟨?_, resolveCollision_not_mem, by rfl⟩
  intro fail fsE load
  cases load with
  | fileNotFound => exact ⟨List.nodup_nil, by simp [convert_conversations_to_md]⟩
  | jsonError m => exact ⟨List.nodup_nil, by simp [convert_conversations_to_md]⟩
  | otherError m => exact ⟨List.nodup_nil, by simp [convert_conversations_to_md]⟩
  | ok data =>
    have key : convert_conversations_to_md fail fsE (LoadResult.ok data) =
        (if (extract_conversation_list data).isEmpty = true then
          ⟨fsE, [], ["No conversations found in the JSON file."], none⟩
        else
          let n := (extract_conversation_list data).length
          let r := driverLoop fail n fsE 0 (extract_conversation_list data)
          ⟨r.finalFs, r.files,
            ("Found " ++ decRepr n ++ " conversations to convert.") :: r.log ++
              (match r.aborted with | none => ["Conversion complete!"] | some _ => []),
            r.aborted⟩) := rfl
    rw [key]
    by_cases he : (extract_conversation_list data).isEmpty = true
    · rw [if_pos he]
      exact ⟨List.nodup_nil, by simp⟩
    · rw [if_neg he]
      exact driverLoop_nodup fail (extract_conversation_list data).length
        (extract_conversation_list data) fsE 0

/-- Claim C6: a failure while creating a conversation's output file is
reported together with the conversation's 1-based index, that conversation is
skipped (no file, file-system state unchanged), and the run continues with
the remaining conversations exactly as it would have: one bad record never
aborts the batch. -/
theorem convert_write_failure_isolated (fail : Nat → Option String) (n i : Nat)
    (fsE : List String) (c : Json) (rest : List Json) (msg : String)
    (hfail : fail i = some msg) (h : titleOk c = true) :
    driverLoop fail n fsE i (c :: rest) =
      ⟨(driverLoop fail n fsE (i + 1) rest).finalFs,
       (driverLoop fail n fsE (i + 1) rest).files,
       ("Error processing conversation " ++ decRepr (i + 1) ++ ": " ++ msg) ::
         (driverLoop fail n fsE (i + 1) rest).log,
       (driverLoop fail n fsE (i + 1) rest).aborted⟩ := by
  have hpc := processConversation_write_fail h n i msg fsE
  simp only [driverLoop, hfail, hpc]
  rfl

/-- Witness for claim C6's theorem: a concrete run whose only conversation
hits an injected I/O failure. -/
theorem convert_write_failure_isolated_witness :
    (fun _ : Nat => some "disk full") 0 = some "disk full" ∧
    titleOk (Json.obj []) = true ∧
    driverLoop (fun _ => some "disk full") 1 [] 0 [Json.obj []] =
      ⟨(driverLoop (fun _ => some "disk full") 1 [] 1 []).finalFs,
       (driverLoop (fun _ => some "disk full") 1 [] 1 []).files,
       ("Error processing conversation " ++ decRepr 1 ++ ": " ++ "disk full") ::
         (driverLoop (fun _ => some "disk full") 1 [] 1 []).log,
       (driverLoop (fun _ => some "disk full") 1 [] 1 []).aborted⟩ :=
  ⟨rfl, rfl, convert_write_failure_isolated (fun _ => some "disk full") 1 0 [] (Json.obj [])
    [] "disk full" rfl rfl⟩

/-- Claim C3 (corrected): when the resolved title equals
"Untitled_Conversation" and the run has more than one conversation, the title
is overridden to "Conversation_<i+1>" (1-based); with exactly one conversation
no override is applied; but the level-1 heading is written from the same
(post-override) title variable, so an overridden conversation's heading reads
"# Conversation_<i+1>", not the pre-override display title. -/
theorem heading_uses_post_override_title :
    (∀ (n i : Nat) (c : Json), 1 < n →
      extract_conversation_title c = Except.ok (Json.str "Untitled_Conversation") →
      phaseA n i c = Except.ok ("Conversation_" ++ decRepr (i + 1),
        sanitize_filename ("Conversation_" ++ decRepr (i + 1)))) ∧
    (∀ (i : Nat) (c : Json),
      extract_conversation_title c = Except.ok (Json.str "Untitled_Conversation") →
      phaseA 1 i c = Except.ok ("Untitled_Conversation",
        sanitize_filename "Untitled_Conversation")) ∧
    (∀ (t : String) (c : Json),
      (renderContent t c).1 = "# " ++ t ++ "\n\n" ++ (renderBody c).1) := by
  refine ⟨?_, ?_, fun t c => rfl⟩
  · intro n i c hn hext
    unfold phaseA
    rw [hext]
    simp [hn]
  · intro i c hext
    unfold phaseA
    rw [hext]
    simp

/-- Witness for claim C3's theorem: the override at the first of two
conversations, and its absence in a single-conversation run. -/
theorem heading_uses_post_override_title_witness :
    (1 < 2 ∧ extract_conversation_title (Json.obj []) =
      Except.ok (Json.str "Untitled_Conversation")) ∧
    phaseA 2 0 (Json.obj []) = Except.ok ("Conversation_" ++ decRepr 1,
      sanitize_filename ("Conversation_" ++ decRepr 1)) ∧
    phaseA 1 0 (Json.obj []) = Except.ok ("Untitled_Conversation",
      sanitize_filename "Untitled_Conversation") :=
  ⟨⟨by omega, rfl⟩,
   heading_uses_post_override_title.1 2 0 (Json.obj []) (by omega) rfl,
   heading_uses_post_override_title.2.1 0 (Json.obj []) rfl⟩

/-- Counterexample for claim C3 as stated: in a two-conversation run of
untitled records, the first file's heading is "# Conversation_1", the
post-override title — not the pre-override display title
"Untitled_Conversation" that the claim prescribes. -/
theorem heading_not_pre_override :
    (convert_conversations_to_md (fun _ => none) []
      (LoadResult.ok (Json.arr [Json.obj [], Json.obj []]))).files =
      [("Conversation_1.md", "# Conversation_1\n\n*No messages found in this conversation.*\n"),
       ("Conversation_2.md", "# Conversation_2\n\n*No messages found in this conversation.*\n")] ∧
    ("# Conversation_1\n\n*No messages found in this conversation.*\n" ≠
      "# Untitled_Conversation\n\n*No messages found in this conversation.*\n") :=
  ⟨rfl, by decide⟩

/-- Witness for claim C2's theorem at a concrete input whose cleaned string is
empty, exercising the "Untitled" fallback branch. -/
theorem sanitize_filename_safe_witness :
    sanitizeCore "..." = [] ∧ sanitize_filename "..." = "Untitled" :=
  ⟨by decide, (sanitize_filename_safe "...").2.2.2 (by decide)⟩

/-- Witness for claim C4's theorem at a concrete run: the generated name
"title.md" is distinct from the pre-existing path "other.md". -/
theorem convert_filenames_distinct_witness :
    "title.md" ∈ (convert_conversations_to_md (fun _ => none) ["other.md"]
      (LoadResult.ok (Json.arr [Json.obj [("name", Json.str "title")]]))).files.map Prod.fst ∧
    "title.md" ∉ ["other.md"] :=
  ⟨by rw [show (convert_conversations_to_md (fun _ => none) ["other.md"]
      (LoadResult.ok (Json.arr [Json.obj [("name", Json.str "title")]]))).files.map Prod.fst =
      ["title.md"] from rfl]; simp,
   (convert_filenames_distinct.1 (fun _ => none) ["other.md"]
      (LoadResult.ok (Json.arr [Json.obj [("name", Json.str "title")]]))).2 "title.md"
      (by rw [show (convert_conversations_to_md (fun _ => none) ["other.md"]
        (LoadResult.ok (Json.arr [Json.obj [("name", Json.str "title")]]))).files.map Prod.fst =
        ["title.md"] from rfl]; simp)⟩
